import Mathlib

/- Verification development for the cgf repository: two OpenGL mesh-viewer
programs, part1.cpp (flat-shading viewer, `loadSMF`/`onKey`/`main`) and
part2.cpp (Gouraud/Phong viewer, `load_smf`/`key_callback`/`main`).

The SMF text-format loader is embedded over exact rationals: the decimal
values written in a mesh file are kept exactly, idealising away float
rounding, which no claim about the loader depends on.  Unsigned 32-bit
arithmetic is modelled as Nat with explicit reduction modulo 2^32.  The
geometry pipeline (normals, centroid, projection) is embedded over the real
numbers.  GPU, windowing and input polling are external collaborators per
the specification and are not modelled; the key handlers are embedded as
pure state-transition functions. -/

/-- Line of a text file, as the list of its characters (one result of
`std::getline`, newline removed). -/
abbrev Line := List Char

/-- Whitespace characters skipped by `std::istream` formatted extraction
(space, tab, newline, carriage return, vertical tab, form feed). -/
def isWs (c : Char) : Bool :=
  c = ' ' || c = '\t' || c = '\n' || c = '\r' || c = Char.ofNat 11 || c = Char.ofNat 12

/-- Skip leading stream whitespace. -/
def dropWs (l : Line) : Line := l.dropWhile isWs

/-- State of an `istringstream` built from one line: the remaining characters
and the fail flag. -/
structure IStream where
  rest : Line
  failed : Bool
  deriving DecidableEq

/-- Decimal value of a digit run. -/
def digitsVal (ds : List Char) : Nat := ds.foldl (fun n c => 10 * n + (c.toNat - 48)) 0

/-- Formatted extraction of an `unsigned int` (`iss >> a`), per `std::num_get`
with the default `dec` base: optional sign, then decimal digits.  Under C++11
semantics a failed extraction stores 0, an overflowing one stores the maximum
value, and a minus-signed value is negated modulo 2^32.  Once the stream is in
a failed state, further extractions do nothing (the C++ leaves the variable
indeterminate there; the model stores 0, and no claim depends on that value). -/
def readU32 (s : IStream) : Nat × IStream :=
  if s.failed then (0, s) else
  let t := dropWs s.rest
  let neg := t.head? = some '-'
  let t1 := if t.head? = some '-' || t.head? = some '+' then t.tail else t
  let ds := t1.takeWhile Char.isDigit
  let r := t1.dropWhile Char.isDigit
  if ds.isEmpty then (0, { rest := r, failed := true })
  else
    let d := digitsVal ds
    let v := if 4294967296 ≤ d then 4294967295
             else if neg then (4294967296 - d % 4294967296) % 4294967296 else d
    (v, { rest := r, failed := false })

/-- Formatted extraction of a `float` (`iss >> x`): optional sign, integer
digits, optional '.' and fraction digits, optional exponent.  At least one
mantissa digit is required, and an 'e' must be followed by digits, else the
extraction fails storing 0.  The exact decimal value is kept as a rational
(float rounding idealised away); hexadecimal floats and inf/nan spellings are
out of scope. -/
def readFloat (s : IStream) : ℚ × IStream :=
  if s.failed then (0, s) else
  let t := dropWs s.rest
  let neg := t.head? = some '-'
  let t1 := if t.head? = some '-' || t.head? = some '+' then t.tail else t
  let ip := t1.takeWhile Char.isDigit
  let t2 := t1.dropWhile Char.isDigit
  let hasDot := t2.head? = some '.'
  let t3 := if hasDot then t2.tail else t2
  let fp := if hasDot then t3.takeWhile Char.isDigit else []
  let t4 := if hasDot then t3.dropWhile Char.isDigit else t3
  if ip.isEmpty && fp.isEmpty then (0, { rest := t4, failed := true })
  else
    let mant : ℚ := (digitsVal ip : ℚ) + (digitsVal fp : ℚ) / ((10 : ℚ) ^ fp.length)
    let hasExp := t4.head? = some 'e' || t4.head? = some 'E'
    if hasExp then
      let t5 := t4.tail
      let eneg := t5.head? = some '-'
      let t6 := if t5.head? = some '-' || t5.head? = some '+' then t5.tail else t5
      let eds := t6.takeWhile Char.isDigit
      let t7 := t6.dropWhile Char.isDigit
      if eds.isEmpty then (0, { rest := t7, failed := true })
      else
        let e : ℤ := if eneg then -(digitsVal eds : ℤ) else (digitsVal eds : ℤ)
        ((if neg then -mant else mant) * (10 : ℚ) ^ e, { rest := t7, failed := false })
    else ((if neg then -mant else mant), { rest := t4, failed := false })

/-- A parsed vertex position (`glm::vec3`, float components idealised to ℚ). -/
structure Vec3q where
  x : ℚ
  y : ℚ
  z : ℚ
  deriving DecidableEq

/-- A face's three vertex indices (`glm::uvec3`: unsigned 32-bit values,
kept as Nat below 2^32). -/
structure UVec3 where
  x : Nat
  y : Nat
  z : Nat
  deriving DecidableEq

/-- The `v` branch of both loaders: read three floats from the rest of the
line (`iss >> x >> y >> z`) and store them in order x, y, z. -/
def vertexOf (rest : Line) : Vec3q :=
  let p1 := readFloat { rest := rest, failed := false }
  let p2 := readFloat p1.2
  let p3 := readFloat p2.2
  ⟨p1.1, p2.1, p3.1⟩

/-- The raw one-based indices read by the `f` branch (`iss >> a >> b >> c`). -/
def faceNums (rest : Line) : Nat × Nat × Nat :=
  let p1 := readU32 { rest := rest, failed := false }
  let p2 := readU32 p1.2
  let p3 := readU32 p2.2
  (p1.1, p2.1, p3.1)

/-- Unsigned 32-bit subtraction of 1 (`a - 1` on `unsigned int`): wraps modulo
2^32 = 4294967296. -/
def u32sub1 (a : Nat) : Nat := (a + 4294967295) % 4294967296

/-- The `f` branch of both loaders: `faces.emplace_back(a - 1, b - 1, c - 1)`. -/
def faceOf (rest : Line) : UVec3 :=
  ⟨u32sub1 (faceNums rest).1, u32sub1 (faceNums rest).2.1, u32sub1 (faceNums rest).2.2⟩

/-- The tag as the loaders read it: `char type; iss >> type` extracts the first
non-whitespace character of the line. -/
def tagChar (l : Line) : Option Char := (dropWs l).head?

/-- Rest of the line after the extracted tag character. -/
def afterTag (l : Line) : Line := (dropWs l).tail

/-- Core of both SMF loaders (`loadSMF`, part1.cpp lines 25-60, and
`load_smf`, part2.cpp lines 39-64; their parsing logic is identical).  Per
line: skip empty lines, extract the tag character, dispatch on 'v' and 'f',
ignore every other tag character.  On a whitespace-only line the tag
extraction fails and the C++ then compares an indeterminate `char`; no
deterministic branch emplaces there, so the line is modelled as ignored. -/
def loadCore : List Line → List Vec3q × List UVec3
  | [] => ([], [])
  | l :: ls =>
    if l.length = 0 then loadCore ls
    else
      match dropWs l with
      | [] => loadCore ls
      | t :: rest =>
        let r := loadCore ls
        if t = 'v' then (vertexOf rest :: r.1, r.2)
        else if t = 'f' then (r.1, faceOf rest :: r.2)
        else r

/-- Loader of part1.cpp (`loadSMF`), applied to the lines of the file. -/
def loadSMF (lines : List String) : List Vec3q × List UVec3 :=
  loadCore (lines.map String.data)

/-- Loader of part2.cpp (`load_smf`); parsing logic identical to `loadSMF`. -/
def load_smf (lines : List String) : List Vec3q × List UVec3 :=
  loadCore (lines.map String.data)

/-- Whitespace-delimited tokens of a line (accumulator holds the current token
reversed). -/
def tokensAux : Line → Line → List Line
  | [], cur => if cur.isEmpty then [] else [cur.reverse]
  | c :: cs, cur =>
    if isWs c then
      if cur.isEmpty then tokensAux cs [] else cur.reverse :: tokensAux cs []
    else tokensAux cs (c :: cur)

/-- Whitespace-delimited tokens of a line: the spec's reading of a line. -/
def tokensOf (l : Line) : List Line := tokensAux l []

/-- First whitespace-delimited token: the spec's notion of the type tag. -/
def firstTok (l : Line) : Option Line := (tokensOf l).head?

/-- Value of a token read as a float. -/
def floatVal (t : Line) : ℚ := (readFloat { rest := t, failed := false }).1

/-- Value of a token read as an unsigned int. -/
def uintVal (t : Line) : Nat := (readU32 { rest := t, failed := false }).1

/-- Modelled from the spec and the wording of claim C1: one vertex per line
whose first whitespace-delimited token is `v` (its three following floats in
order x, y, z), one face triple per line whose first token is `f` (one-based,
converted to zero-based), both in file order; empty lines skipped and lines
with any other tag ignored. -/
def spec_load (lines : List String) : List Vec3q × List UVec3 :=
  let ls := lines.map String.data
  ((ls.filter (fun l => firstTok l = some ['v'])).map (fun l =>
      match tokensOf l with
      | _ :: t1 :: t2 :: t3 :: _ => ⟨floatVal t1, floatVal t2, floatVal t3⟩
      | _ => ⟨0, 0, 0⟩),
   (ls.filter (fun l => firstTok l = some ['f'])).map (fun l =>
      match tokensOf l with
      | _ :: t1 :: t2 :: t3 :: _ =>
        ⟨u32sub1 (uintVal t1), u32sub1 (uintVal t2), u32sub1 (uintVal t3)⟩
      | _ => ⟨u32sub1 0, u32sub1 0, u32sub1 0⟩))

/-- A float token: fully consumed by the float extractor without failure. -/
def isFloatTok (t : Line) : Bool :=
  !(readFloat { rest := t, failed := false }).2.failed &&
    (readFloat { rest := t, failed := false }).2.rest.isEmpty

/-- An unsigned-int token: fully consumed by the extractor without failure. -/
def isUIntTok (t : Line) : Bool :=
  !(readU32 { rest := t, failed := false }).2.failed &&
    (readU32 { rest := t, failed := false }).2.rest.isEmpty

/-- A valid SMF line per the spec's file-format section: empty, a well-formed
`v` directive, a well-formed `f` directive, or a line with some other
(ignored) tag. -/
def validLine (l : Line) : Bool :=
  l.isEmpty ||
  match tokensOf l with
  | [] => false
  | tag :: args =>
    if tag = ['v'] then
      match args with
      | [t1, t2, t3] => isFloatTok t1 && isFloatTok t2 && isFloatTok t3
      | _ => false
    else if tag = ['f'] then
      match args with
      | [t1, t2, t3] => isUIntTok t1 && isUIntTok t2 && isUIntTok t3
      | _ => false
    else true

/-- A valid SMF mesh file: every line is valid. -/
def validFile (lines : List String) : Bool :=
  (lines.map String.data).all validLine

/-- Lines whose extracted tag character is `c`. -/
def tagLines (c : Char) (ls : List Line) : List Line :=
  ls.filter (fun l => tagChar l = some c)

/-- Modelled from the amended claim C1 wording: dispatch on the first
non-whitespace character of each line (the character the loaders actually
extract) rather than on the whole first token. -/
def spec_load_by_char (lines : List String) : List Vec3q × List UVec3 :=
  let ls := lines.map String.data
  ((tagLines 'v' ls).map (fun l => vertexOf (afterTag l)),
   (tagLines 'f' ls).map (fun l => faceOf (afterTag l)))

lemma loadCore_eq (ls : List Line) :
    loadCore ls = ((tagLines 'v' ls).map (fun l => vertexOf (afterTag l)),
                   (tagLines 'f' ls).map (fun l => faceOf (afterTag l))) := by
  induction ls with
  | nil => rfl
  | cons l ls ih =>
    by_cases h0 : l.length = 0
    · have hl : l = [] := List.length_eq_zero.mp h0
      subst hl
      simpa [loadCore, tagLines, tagChar, dropWs] using ih
    · rw [loadCore]
      simp only [h0, if_false]
      cases hd : dropWs l with
      | nil =>
        have ht : tagChar l = none := by simp [tagChar, hd]
        simp [tagLines, ht, List.filter_cons, ih]
      | cons t rest =>
        have ht : tagChar l = some t := by simp [tagChar, hd]
        have ha : afterTag l = rest := by simp [afterTag, hd]
        by_cases hv : t = 'v'
        · subst hv
          simp [tagLines, List.filter_cons, ht, ha, ih]
        · by_cases hf : t = 'f'
          · subst hf
            simp [tagLines, List.filter_cons, ht, ha, ih, hv]
          · simp [tagLines, List.filter_cons, ht, ha, ih, hv, hf]

/-- Keys relevant to the two key handlers (GLFW key codes; `Other` stands for
any unhandled key). -/
inductive Key where
  | A | D | W | S | Q | E | J | L | I | K | U | O | P | Num1 | Num2 | M | Escape | Other
  deriving DecidableEq

/-- GLFW key-event actions: initial press, auto-repeat, release. -/
inductive KeyAction where
  | press | rpt | release
  deriving DecidableEq

/-- Global camera state of part1.cpp (lines 131-134; floats idealised to ℚ),
plus the window-should-close flag the Escape branch sets. -/
structure State1 where
  cameraTheta : ℚ
  cameraRadius : ℚ
  cameraHeight : ℚ
  usePerspective : Bool
  shouldClose : Bool
  deriving DecidableEq

/-- Initial values of part1's globals. -/
def init1 : State1 := ⟨0, 2.5, 0.5, true, false⟩

/-- Key handler of part1.cpp (`onKey`, lines 136-150): a switch on the key,
executed when the action is a press or a repeat. -/
def onKey (st : State1) (key : Key) (action : KeyAction) : State1 :=
  if action = .press ∨ action = .rpt then
    match key with
    | .A => { st with cameraTheta := st.cameraTheta - 0.05 }
    | .D => { st with cameraTheta := st.cameraTheta + 0.05 }
    | .W => { st with cameraRadius := st.cameraRadius - 0.05 }
    | .S => { st with cameraRadius := st.cameraRadius + 0.05 }
    | .Q => { st with cameraHeight := st.cameraHeight + 0.05 }
    | .E => { st with cameraHeight := st.cameraHeight - 0.05 }
    | .P => { st with usePerspective := !st.usePerspective }
    | .Escape => { st with shouldClose := true }
    | _ => st
  else st

/-- Global camera/light/mode state of part2.cpp (lines 233-238), plus the
window-should-close flag.  `shadingMode` and `currentMaterial` are C++ `int`s. -/
structure State2 where
  camAngle : ℚ
  camRadius : ℚ
  camHeight : ℚ
  lightAngle : ℚ
  lightRadius : ℚ
  lightHeight : ℚ
  perspectiveProj : Bool
  shadingMode : Int
  currentMaterial : Int
  shouldClose : Bool
  deriving DecidableEq

/-- Initial values of part2's globals. -/
def init2 : State2 := ⟨0, 2, 0, 0, 2, 0, true, 1, 0, false⟩

/-- Key handler of part2.cpp (`key_callback`, lines 248-270): a chain of
independent `if`s on the key, all inside the press-or-repeat guard; the
material key M additionally requires the action to be exactly a press
(`key == GLFW_KEY_M && action == GLFW_PRESS`).  `%` on the nonnegative
material index agrees with C++ `%`. -/
def key_callback (st : State2) (key : Key) (action : KeyAction) : State2 :=
  if action = .press ∨ action = .rpt then
    let st := if key = .A then { st with camAngle := st.camAngle - 0.05 } else st
    let st := if key = .D then { st with camAngle := st.camAngle + 0.05 } else st
    let st := if key = .W then { st with camRadius := st.camRadius - 0.05 } else st
    let st := if key = .S then { st with camRadius := st.camRadius + 0.05 } else st
    let st := if key = .Q then { st with camHeight := st.camHeight + 0.05 } else st
    let st := if key = .E then { st with camHeight := st.camHeight - 0.05 } else st
    let st := if key = .J then { st with lightAngle := st.lightAngle - 0.05 } else st
    let st := if key = .L then { st with lightAngle := st.lightAngle + 0.05 } else st
    let st := if key = .I then { st with lightRadius := st.lightRadius - 0.05 } else st
    let st := if key = .K then { st with lightRadius := st.lightRadius + 0.05 } else st
    let st := if key = .U then { st with lightHeight := st.lightHeight + 0.05 } else st
    let st := if key = .O then { st with lightHeight := st.lightHeight - 0.05 } else st
    let st := if key = .P then { st with perspectiveProj := !st.perspectiveProj } else st
    let st := if key = .Num1 then { st with shadingMode := 1 } else st
    let st := if key = .Num2 then { st with shadingMode := 2 } else st
    let st := if key = .M ∧ action = .press then
                { st with currentMaterial := (st.currentMaterial + 1) % 3 } else st
    let st := if key = .Escape then { st with shouldClose := true } else st
    st
  else st

/-- Open-then-parse of both programs: the loader returns failure exactly when
the file cannot be opened (part1 lines 29-33, part2 lines 42-43); once the
file is open the parse loop cannot fail. -/
def load_smf_run (openable : Bool) (content : List String) :
    Option (List Vec3q × List UVec3) :=
  if openable then some (load_smf content) else none

/-- Entry stage of both `main`s (part1 lines 152-162, part2 lines 272-281):
missing CLI argument and unopenable file both return -1; otherwise execution
proceeds (windowing/GPU glue is an external collaborator, out of scope). -/
def main_run (argv : List String) (openable : Bool) (content : List String) : Int :=
  if argv.length < 2 then -1
  else
    match load_smf_run openable content with
    | none => -1
    | some _ => 0

noncomputable section

/-- Vector of the geometry pipeline (`glm::vec3`), float components idealised
to ℝ. -/
@[ext]
structure Vec3 where
  x : ℝ
  y : ℝ
  z : ℝ

instance : Zero Vec3 := ⟨⟨0, 0, 0⟩⟩

instance : Add Vec3 := ⟨fun a b => ⟨a.x + b.x, a.y + b.y, a.z + b.z⟩⟩

instance : Neg Vec3 := ⟨fun a => ⟨-a.x, -a.y, -a.z⟩⟩

instance : Sub Vec3 := ⟨fun a b => ⟨a.x - b.x, a.y - b.y, a.z - b.z⟩⟩

instance : SMul ℝ Vec3 := ⟨fun c a => ⟨c * a.x, c * a.y, c * a.z⟩⟩

@[simp] lemma Vec3.zero_x : (0 : Vec3).x = 0 := rfl

@[simp] lemma Vec3.zero_y : (0 : Vec3).y = 0 := rfl

@[simp] lemma Vec3.zero_z : (0 : Vec3).z = 0 := rfl

@[simp] lemma Vec3.add_x (a b : Vec3) : (a + b).x = a.x + b.x := rfl

@[simp] lemma Vec3.add_y (a b : Vec3) : (a + b).y = a.y + b.y := rfl

@[simp] lemma Vec3.add_z (a b : Vec3) : (a + b).z = a.z + b.z := rfl

@[simp] lemma Vec3.sub_x (a b : Vec3) : (a - b).x = a.x - b.x := rfl

@[simp] lemma Vec3.sub_y (a b : Vec3) : (a - b).y = a.y - b.y := rfl

@[simp] lemma Vec3.sub_z (a b : Vec3) : (a - b).z = a.z - b.z := rfl

@[simp] lemma Vec3.smul_x (c : ℝ) (a : Vec3) : (c • a).x = c * a.x := rfl

@[simp] lemma Vec3.smul_y (c : ℝ) (a : Vec3) : (c • a).y = c * a.y := rfl

@[simp] lemma Vec3.smul_z (c : ℝ) (a : Vec3) : (c • a).z = c * a.z := rfl

instance : AddCommMonoid Vec3 where
  add_assoc a b c := by ext <;> simp <;> ring
  zero_add a := by ext <;> simp
  add_zero a := by ext <;> simp
  add_comm a b := by ext <;> simp <;> ring
  nsmul := nsmulRec

/-- Dot product (`glm::dot`). -/
def glm.dot (a b : Vec3) : ℝ := a.x * b.x + a.y * b.y + a.z * b.z

/-- Euclidean length (`glm::length`). -/
def glm.length (v : Vec3) : ℝ := Real.sqrt (glm.dot v v)

/-- Cross product (`glm::cross`). -/
def glm.cross (a b : Vec3) : Vec3 :=
  ⟨a.y * b.z - a.z * b.y, a.z * b.x - a.x * b.z, a.x * b.y - a.y * b.x⟩

/-- Normalisation (`glm::normalize`): the vector divided by its length. -/
def glm.normalize (v : Vec3) : Vec3 := (glm.length v)⁻¹ • v

/-- Component-wise absolute value (`glm::abs`). -/
def glm.abs (v : Vec3) : Vec3 := ⟨|v.x|, |v.y|, |v.z|⟩

/-- Normal both programs assign to a face with corner positions p0, p1, p2:
`glm::normalize(glm::cross(p1 - p0, p2 - p0))`. -/
def faceNormal (p0 p1 p2 : Vec3) : Vec3 := glm.normalize (glm.cross (p1 - p0) (p2 - p0))

/-- Vertex record of part1.cpp (position, normal, colour). -/
structure Vertex where
  pos : Vec3
  normal : Vec3
  color : Vec3

/-- The three vertices part1's main pushes for one face (lines 173-184):
positions looked up by index (out of range is UB in the C++; modelled by a
zero default), one shared face normal, colour = component-wise |normal|. -/
def flatTriple (positions : List Vec3) (f : UVec3) : List Vertex :=
  let p0 := positions.getD f.x 0
  let p1 := positions.getD f.y 0
  let p2 := positions.getD f.z 0
  let normal := faceNormal p0 p1 p2
  let color := glm.abs normal
  [⟨p0, normal, color⟩, ⟨p1, normal, color⟩, ⟨p2, normal, color⟩]

/-- Vertex list built by part1's main (lines 170-184): three vertices per
face, faces in order, vertices duplicated per face. -/
def flatVertices (positions : List Vec3) (faces : List UVec3) : List Vertex :=
  (faces.map (flatTriple positions)).flatten

/-- Per-face normals of part2's main (lines 284-289). -/
def face_normals (positions : List Vec3) (faces : List UVec3) : List Vec3 :=
  faces.map fun f =>
    faceNormal (positions.getD f.x 0) (positions.getD f.y 0) (positions.getD f.z 0)

/-- One iteration of part2's accumulation loop (lines 292-300): add the face's
normal into its three vertices' running sums and bump the three counts. -/
def accumStep (acc : List Vec3 × List Nat) (p : UVec3 × Vec3) : List Vec3 × List Nat :=
  let vns := acc.1
  let vns := vns.set p.1.x (vns.getD p.1.x 0 + p.2)
  let vns := vns.set p.1.y (vns.getD p.1.y 0 + p.2)
  let vns := vns.set p.1.z (vns.getD p.1.z 0 + p.2)
  let cnts := acc.2
  let cnts := cnts.set p.1.x (cnts.getD p.1.x 0 + 1)
  let cnts := cnts.set p.1.y (cnts.getD p.1.y 0 + 1)
  let cnts := cnts.set p.1.z (cnts.getD p.1.z 0 + 1)
  (vns, cnts)

/-- Per-vertex averaged normals of part2's main (lines 290-303): accumulate
over all faces, then normalise sum/count for every vertex with a positive
count; vertices with count zero keep their zero initial value (`counts` is a
`std::vector<int>` only ever incremented, modelled as Nat). -/
def vertex_normals (positions : List Vec3) (faces : List UVec3) : List Vec3 :=
  let acc := (faces.zip (face_normals positions faces)).foldl accumStep
      (List.replicate positions.length 0, List.replicate positions.length 0)
  (acc.1.zip acc.2).map fun vc =>
    if 0 < vc.2 then glm.normalize (((vc.2 : ℝ))⁻¹ • vc.1) else vc.1

/-- Vertex record of part2.cpp (position, normal). -/
structure Vertex2 where
  pos : Vec3
  normal : Vec3

/-- Triangle list of part2's main (lines 306-312): per face, duplicate each of
its three vertices' (position, averaged normal) pair. -/
def smoothVertices (positions : List Vec3) (faces : List UVec3) : List Vertex2 :=
  (faces.map fun f =>
    [⟨positions.getD f.x 0, (vertex_normals positions faces).getD f.x 0⟩,
     ⟨positions.getD f.y 0, (vertex_normals positions faces).getD f.y 0⟩,
     ⟨positions.getD f.z 0, (vertex_normals positions faces).getD f.z 0⟩]).flatten

/-- Mesh centroid as both mains compute it (part1 lines 164-167, part2 lines
314-317): sum of all positions divided by their number. -/
def centroid (positions : List Vec3) : Vec3 :=
  ((positions.length : ℝ))⁻¹ • positions.foldl (· + ·) 0

/-- Bounding radius as both mains compute it (part1 lines 222-225, part2
lines 318-319): maximal distance of any vertex from the centroid, running
max starting at 0. -/
def maxRadius (positions : List Vec3) : ℝ :=
  positions.foldl (fun m p => max m (glm.length (p - centroid positions))) 0

/-- Degrees to radians (`glm::radians`). -/
def glm.radians (deg : ℝ) : ℝ := deg * (Real.pi / 180)

/-- Symbolic projection parameters handed to glm (the matrices themselves are
GPU glue, out of scope). -/
inductive Proj where
  | persp (fovy aspect znear zfar : ℝ)
  | ortho (left right bottom top znear zfar : ℝ)

/-- Vertical half-extent of the orthographic projection (`s` in part1 line
255 and part2 line 406): twice the bounding radius. -/
def orthoHalfExtent (positions : List Vec3) : ℝ := maxRadius positions * 2

/-- Projection choice of both render loops (part1 lines 251-257, part2 lines
403-408): perspective with fixed 45-degree vertical field of view, near 0.01,
far 100, or orthographic from the half-extent. -/
def projection (usePerspective : Bool) (aspect : ℝ) (positions : List Vec3) : Proj :=
  if usePerspective then Proj.persp (glm.radians 45) aspect 0.01 100
  else
    Proj.ortho (-(orthoHalfExtent positions) * aspect) (orthoHalfExtent positions * aspect)
      (-(orthoHalfExtent positions)) (orthoHalfExtent positions) (-100) 100

/-- Scaling a mesh by a factor (the transformation claim C8 quantifies over). -/
def scaleMesh (k : ℝ) (positions : List Vec3) : List Vec3 := positions.map (k • ·)

/-- Combined state of part1's main and globals: loaded geometry, built vertex
list, control scalars.  A key event reaches the geometry only through
`onKey`, which is a function of the control state alone. -/
structure ProgState1 where
  positions : List Vec3
  faces : List UVec3
  vertices : List Vertex
  ctrl : State1

/-- Effect of one key event on part1's program state. -/
def stepKey1 (p : ProgState1) (e : Key × KeyAction) : ProgState1 :=
  { p with ctrl := onKey p.ctrl e.1 e.2 }

/-- Effect of a sequence of key events on part1's program state. -/
def applyKeys1 (p : ProgState1) (evs : List (Key × KeyAction)) : ProgState1 :=
  evs.foldl stepKey1 p

/-- Combined state of part2's main and globals. -/
structure ProgState2 where
  positions : List Vec3
  faces : List UVec3
  vertices : List Vertex2
  ctrl : State2

/-- Effect of one key event on part2's program state. -/
def stepKey2 (p : ProgState2) (e : Key × KeyAction) : ProgState2 :=
  { p with ctrl := key_callback p.ctrl e.1 e.2 }

/-- Effect of a sequence of key events on part2's program state. -/
def applyKeys2 (p : ProgState2) (evs : List (Key × KeyAction)) : ProgState2 :=
  evs.foldl stepKey2 p

end

lemma getD_set_self {α : Type} (l : List α) (i : Nat) (a d : α) (h : i < l.length) :
    (l.set i a).getD i d = a := by
  rw [List.getD_eq_getElem?_getD, List.getElem?_set_self h]
  rfl

lemma getD_set_ne {α : Type} (l : List α) (i j : Nat) (a d : α) (h : i ≠ j) :
    (l.set i a).getD j d = l.getD j d := by
  rw [List.getD_eq_getElem?_getD, List.getElem?_set_ne h, ← List.getD_eq_getElem?_getD]

lemma getD_replicate {α : Type} (n i : Nat) (a d : α) (h : i < n) :
    (List.replicate n a).getD i d = a := by
  rw [List.getD_eq_getElem?_getD, List.getElem?_replicate]
  simp [h]

/-- Updating index i by adding n changes the value read at an in-range v by n
exactly when i = v (the shape of one `+=`/`++` statement of part2's loop). -/
lemma getD_set_add {M : Type} [AddCommMonoid M] (l : List M) (i v : Nat) (n : M)
    (hv : v < l.length) :
    (l.set i (l.getD i 0 + n)).getD v 0 = l.getD v 0 + (if i = v then n else 0) := by
  by_cases h : i = v
  · subst h
    rw [getD_set_self _ _ _ _ hv, if_pos rfl]
  · rw [getD_set_ne _ _ _ _ _ h, if_neg h, add_zero]

/-- Face-normal contributions at vertex index v: one copy of the face's normal
per corner slot equal to v, faces in loop order. -/
def occNormals (v : Nat) : List (UVec3 × Vec3) → List Vec3
  | [] => []
  | p :: ps =>
    ((if p.1.x = v then [p.2] else []) ++ (if p.1.y = v then [p.2] else []) ++
      (if p.1.z = v then [p.2] else [])) ++ occNormals v ps

lemma accumStep_length (acc : List Vec3 × List Nat) (p : UVec3 × Vec3) :
    (accumStep acc p).1.length = acc.1.length ∧ (accumStep acc p).2.length = acc.2.length := by
  simp [accumStep]

lemma accumStep_fst_getD (acc : List Vec3 × List Nat) (p : UVec3 × Vec3) (v : Nat)
    (hv : v < acc.1.length) :
    (accumStep acc p).1.getD v 0 =
      acc.1.getD v 0 + ((if p.1.x = v then [p.2] else []) ++ (if p.1.y = v then [p.2] else []) ++
        (if p.1.z = v then [p.2] else [])).sum := by
  have h1 : v < (acc.1.set p.1.x (acc.1.getD p.1.x 0 + p.2)).length := by
    rwa [List.length_set]
  have h2 : v < ((acc.1.set p.1.x (acc.1.getD p.1.x 0 + p.2)).set p.1.y
      ((acc.1.set p.1.x (acc.1.getD p.1.x 0 + p.2)).getD p.1.y 0 + p.2)).length := by
    rwa [List.length_set, List.length_set]
  show ((((acc.1.set p.1.x (acc.1.getD p.1.x 0 + p.2))).set p.1.y _).set p.1.z _).getD v 0 = _
  rw [getD_set_add _ _ _ _ h2, getD_set_add _ _ _ _ h1, getD_set_add _ _ _ _ hv]
  split_ifs <;> simp <;> abel

lemma accumStep_snd_getD (acc : List Vec3 × List Nat) (p : UVec3 × Vec3) (v : Nat)
    (hv : v < acc.2.length) :
    (accumStep acc p).2.getD v 0 =
      acc.2.getD v 0 + ((if p.1.x = v then [p.2] else []) ++ (if p.1.y = v then [p.2] else []) ++
        (if p.1.z = v then [p.2] else [])).length := by
  have h1 : v < (acc.2.set p.1.x (acc.2.getD p.1.x 0 + 1)).length := by
    rwa [List.length_set]
  have h2 : v < ((acc.2.set p.1.x (acc.2.getD p.1.x 0 + 1)).set p.1.y
      ((acc.2.set p.1.x (acc.2.getD p.1.x 0 + 1)).getD p.1.y 0 + 1)).length := by
    rwa [List.length_set, List.length_set]
  show ((((acc.2.set p.1.x (acc.2.getD p.1.x 0 + 1))).set p.1.y _).set p.1.z _).getD v 0 = _
  rw [getD_set_add _ _ _ _ h2, getD_set_add _ _ _ _ h1, getD_set_add _ _ _ _ hv]
  split_ifs <;> simp

lemma foldl_accum_length (ps : List (UVec3 × Vec3)) (acc : List Vec3 × List Nat) :
    (ps.foldl accumStep acc).1.length = acc.1.length ∧
    (ps.foldl accumStep acc).2.length = acc.2.length := by
  induction ps generalizing acc with
  | nil => exact ⟨rfl, rfl⟩
  | cons p ps ih =>
    rw [List.foldl_cons]
    obtain ⟨i1, i2⟩ := ih (accumStep acc p)
    obtain ⟨s1, s2⟩ := accumStep_length acc p
    exact ⟨i1.trans s1, i2.trans s2⟩

/-- Value of the accumulated sum and count at an in-range vertex index: the
initial value plus, respectively, the sum and the number of the face-normal
contributions at that index. -/
lemma foldl_accum_getD (ps : List (UVec3 × Vec3)) (acc : List Vec3 × List Nat) (v : Nat)
    (hv1 : v < acc.1.length) (hv2 : v < acc.2.length) :
    (ps.foldl accumStep acc).1.getD v 0 = acc.1.getD v 0 + (occNormals v ps).sum ∧
    (ps.foldl accumStep acc).2.getD v 0 = acc.2.getD v 0 + (occNormals v ps).length := by
  induction ps generalizing acc with
  | nil => simp [occNormals]
  | cons p ps ih =>
    rw [List.foldl_cons]
    obtain ⟨s1, s2⟩ := accumStep_length acc p
    obtain ⟨i1, i2⟩ := ih (accumStep acc p) (by rwa [s1]) (by rwa [s2])
    constructor
    · rw [i1, accumStep_fst_getD acc p v hv1, occNormals]
      simp [List.sum_append, add_assoc]
    · rw [i2, accumStep_snd_getD acc p v hv2, occNormals]
      simp [List.length_append, add_assoc]

lemma getD_map_zip {α β γ : Type} (f : α × β → γ) (l1 : List α) (l2 : List β) (v : Nat)
    (h1 : v < l1.length) (h2 : v < l2.length) (d : γ) (d1 : α) (d2 : β) :
    ((l1.zip l2).map f).getD v d = f (l1.getD v d1, l2.getD v d2) := by
  have hz : v < (l1.zip l2).length := by
    rw [List.length_zip]
    omega
  have hm : v < ((l1.zip l2).map f).length := by
    rwa [List.length_map]
  rw [List.getD_eq_getElem?_getD, List.getElem?_eq_getElem hm, Option.getD_some,
    List.getElem_map, List.getElem_zip, List.getD_eq_getElem?_getD,
    List.getD_eq_getElem?_getD, List.getElem?_eq_getElem h1, List.getElem?_eq_getElem h2]
  rfl

/-- Characterisation of part2's averaged vertex normal at any in-range vertex
index: normalize(sum of contributions / number of contributions) when the
count is positive, the zero vector otherwise. -/
lemma vertex_normals_getD (positions : List Vec3) (faces : List UVec3) (v : Nat)
    (hv : v < positions.length) :
    (vertex_normals positions faces).getD v 0 =
      (if 0 < (occNormals v (faces.zip (face_normals positions faces))).length
       then glm.normalize
         ((((occNormals v (faces.zip (face_normals positions faces))).length : ℝ))⁻¹ •
           (occNormals v (faces.zip (face_normals positions faces))).sum)
       else 0) := by
  unfold vertex_normals
  have hr1 : v < (List.replicate positions.length (0 : Vec3)).length := by
    rwa [List.length_replicate]
  have hr2 : v < (List.replicate positions.length (0 : Nat)).length := by
    rwa [List.length_replicate]
  obtain ⟨hl1, hl2⟩ := foldl_accum_length (faces.zip (face_normals positions faces))
    (List.replicate positions.length 0, List.replicate positions.length 0)
  obtain ⟨hg1, hg2⟩ := foldl_accum_getD (faces.zip (face_normals positions faces))
    (List.replicate positions.length 0, List.replicate positions.length 0) v hr1 hr2
  rw [getD_map_zip _ _ _ v (by rw [hl1]; exact hr1) (by rw [hl2]; exact hr2) _ 0 0]
  rw [hg1, hg2, getD_replicate _ _ _ _ hv, getD_replicate _ _ _ _ hv, zero_add, zero_add]
  by_cases hocc : 0 < (occNormals v (faces.zip (face_normals positions faces))).length
  · simp [hocc]
  · have hlen0 : (occNormals v (faces.zip (face_normals positions faces))).length = 0 := by
      omega
    have : occNormals v (faces.zip (face_normals positions faces)) = [] :=
      List.length_eq_zero.mp hlen0
    simp [this]

lemma glm.length_smul (c : ℝ) (v : Vec3) : glm.length (c • v) = |c| * glm.length v := by
  unfold glm.length glm.dot
  have h : c * v.x * (c * v.x) + c * v.y * (c * v.y) + c * v.z * (c * v.z) =
      c ^ 2 * (v.x * v.x + v.y * v.y + v.z * v.z) := by ring
  simp only [Vec3.smul_x, Vec3.smul_y, Vec3.smul_z, h]
  rw [Real.sqrt_mul (sq_nonneg c), Real.sqrt_sq_eq_abs]

lemma glm.normalize_unit (n : Vec3) (h : glm.length n = 1) : glm.normalize n = n := by
  unfold glm.normalize
  rw [h]
  ext <;> simp

lemma glm.normalize_smul_pos (c : ℝ) (hc : 0 < c) (v : Vec3) :
    glm.normalize (c • v) = glm.normalize v := by
  unfold glm.normalize
  rw [glm.length_smul, abs_of_pos hc]
  ext <;> simp only [Vec3.smul_x, Vec3.smul_y, Vec3.smul_z, mul_inv] <;>
    rw [show ∀ r : ℝ, c⁻¹ * (glm.length v)⁻¹ * (c * r) =
      (c⁻¹ * c) * ((glm.length v)⁻¹ * r) from fun r => by ring, inv_mul_cancel₀ hc.ne'] <;>
    ring

/-- Number of references to vertex index v among the faces, corner slots
counted separately. -/
def vertexRefCount (v : Nat) (faces : List UVec3) : Nat :=
  (faces.map fun f => (if f.x = v then 1 else 0) + (if f.y = v then 1 else 0) +
    (if f.z = v then 1 else 0)).sum

lemma occNormals_nil_of_refCount_zero (v : Nat) (faces : List UVec3)
    (fns : List Vec3) (h : vertexRefCount v faces = 0) :
    occNormals v (faces.zip fns) = [] := by
  induction faces generalizing fns with
  | nil => simp [List.zip, occNormals]
  | cons f faces ih =>
    cases fns with
    | nil => simp [List.zip, occNormals]
    | cons n fns =>
      have hx : ¬ f.x = v := by
        intro hc
        simp [vertexRefCount, hc] at h
      have hy : ¬ f.y = v := by
        intro hc
        simp [vertexRefCount, hc] at h
      have hz : ¬ f.z = v := by
        intro hc
        simp [vertexRefCount, hc] at h
      have ht : vertexRefCount v faces = 0 := by
        simp [vertexRefCount] at h ⊢
        omega
      rw [List.zip_cons_cons, occNormals]
      simp only [hx, hy, hz, if_false, List.nil_append]
      exact ih fns ht

lemma flatTriple_length (positions : List Vec3) (f : UVec3) :
    (flatTriple positions f).length = 3 := rfl

lemma flatVertices_length (positions : List Vec3) (faces : List UVec3) :
    (flatVertices positions faces).length = 3 * faces.length := by
  induction faces with
  | nil => rfl
  | cons f faces ih =>
    unfold flatVertices at ih ⊢
    rw [List.map_cons, List.flatten_cons, List.length_append, ih, flatTriple_length]
    simp [List.length_cons]
    ring

lemma flatVertices_slice (positions : List Vec3) (faces : List UVec3) (i : Nat)
    (hi : i < faces.length) :
    ((flatVertices positions faces).drop (3 * i)).take 3 =
      flatTriple positions (faces.get ⟨i, hi⟩) := by
  induction faces generalizing i with
  | nil => simp at hi
  | cons f faces ih =>
    cases i with
    | zero =>
      unfold flatVertices
      rw [List.map_cons, List.flatten_cons, Nat.mul_zero, List.drop_zero]
      rw [List.take_left' (flatTriple_length positions f)]
      rfl
    | succ i =>
      have hi2 : i < faces.length := by
        simpa using hi
      have h3 : 3 * (i + 1) = (flatTriple positions f).length + 3 * i := by
        rw [flatTriple_length]
        ring
      unfold flatVertices
      rw [List.map_cons, List.flatten_cons, h3, List.drop_append]
      exact ih i hi2

lemma smul_vec_zero (k : ℝ) : k • (0 : Vec3) = 0 := by
  ext <;> simp

lemma foldl_add_map_smul (k : ℝ) (l : List Vec3) (a : Vec3) :
    (l.map (k • ·)).foldl (· + ·) (k • a) = k • l.foldl (· + ·) a := by
  induction l generalizing a with
  | nil => rfl
  | cons p l ih =>
    rw [List.map_cons, List.foldl_cons, List.foldl_cons]
    rw [show k • a + k • p = k • (a + p) from by ext <;> simp <;> ring]
    exact ih (a + p)

lemma centroid_smul (k : ℝ) (positions : List Vec3) :
    centroid (scaleMesh k positions) = k • centroid positions := by
  unfold centroid scaleMesh
  rw [List.length_map]
  have h := foldl_add_map_smul k positions 0
  rw [smul_vec_zero] at h
  rw [h]
  ext <;> simp <;> ring

lemma smul_sub_smul (k : ℝ) (p c : Vec3) : k • p - k • c = k • (p - c) := by
  ext <;> simp <;> ring

lemma foldl_max_smul (k : ℝ) (hk : 0 ≤ k) (g : Vec3 → ℝ) (l : List Vec3) (a : ℝ) :
    l.foldl (fun m p => max m (k * g p)) (k * a) = k * l.foldl (fun m p => max m (g p)) a := by
  induction l generalizing a with
  | nil => rfl
  | cons p l ih =>
    rw [List.foldl_cons, List.foldl_cons, ← mul_max_of_nonneg _ _ hk]
    exact ih (max a (g p))

lemma maxRadius_smul (k : ℝ) (hk : 0 ≤ k) (positions : List Vec3) :
    maxRadius (scaleMesh k positions) = k * maxRadius positions := by
  unfold maxRadius
  rw [centroid_smul]
  show (scaleMesh k positions).foldl
      (fun m p => max m (glm.length (p - k • centroid positions))) 0 = _
  unfold scaleMesh
  rw [List.foldl_map]
  have hbody : ∀ (m : ℝ) (p : Vec3),
      max m (glm.length (k • p - k • centroid positions)) =
        max m (k * glm.length (p - centroid positions)) := by
    intro m p
    rw [smul_sub_smul, glm.length_smul, abs_of_nonneg hk]
  simp only [hbody]
  have h := foldl_max_smul k hk (fun p => glm.length (p - centroid positions)) positions 0
  rw [mul_zero] at h
  exact h

lemma length_e3 : glm.length ⟨0, 0, 1⟩ = 1 := by
  unfold glm.length glm.dot
  norm_num

lemma normalize_e3 : glm.normalize ⟨0, 0, 1⟩ = ⟨0, 0, 1⟩ :=
  glm.normalize_unit _ length_e3

lemma faceNormal_tri1 : faceNormal ⟨0, 0, 0⟩ ⟨1, 0, 0⟩ ⟨0, 1, 0⟩ = ⟨0, 0, 1⟩ := by
  unfold faceNormal
  have hsub1 : (⟨1, 0, 0⟩ : Vec3) - ⟨0, 0, 0⟩ = ⟨1, 0, 0⟩ := by ext <;> norm_num
  have hsub2 : (⟨0, 1, 0⟩ : Vec3) - ⟨0, 0, 0⟩ = ⟨0, 1, 0⟩ := by ext <;> norm_num
  rw [hsub1, hsub2]
  have hcross : glm.cross ⟨1, 0, 0⟩ ⟨0, 1, 0⟩ = ⟨0, 0, 1⟩ := by
    unfold glm.cross
    ext <;> norm_num
  rw [hcross]
  exact normalize_e3

lemma faceNormal_tri2 : faceNormal ⟨1, 0, 0⟩ ⟨1, 1, 0⟩ ⟨0, 1, 0⟩ = ⟨0, 0, 1⟩ := by
  unfold faceNormal
  have hsub1 : (⟨1, 1, 0⟩ : Vec3) - ⟨1, 0, 0⟩ = ⟨0, 1, 0⟩ := by ext <;> norm_num
  have hsub2 : (⟨0, 1, 0⟩ : Vec3) - ⟨1, 0, 0⟩ = ⟨-1, 1, 0⟩ := by ext <;> norm_num
  rw [hsub1, hsub2]
  have hcross : glm.cross ⟨0, 1, 0⟩ ⟨-1, 1, 0⟩ = ⟨0, 0, 1⟩ := by
    unfold glm.cross
    ext <;> norm_num
  rw [hcross]
  exact normalize_e3

/-- Claim C1, counterexample: the single-line file "vn 0 0 1" is a valid mesh
file whose only line carries the tag `vn` — not `v` — so per the claim it
must be ignored; the loaders nevertheless ingest it as a vertex, because
they extract only the first character of the tag.  The loaded vertex count
is 1 while the file has no `v`-tagged line. -/
theorem c1_tag_token_counterexample :
    validFile ["vn 0 0 1"] = true ∧
    load_smf ["vn 0 0 1"] ≠ spec_load ["vn 0 0 1"] ∧
    (load_smf ["vn 0 0 1"]).1.length = 1 ∧
    ((["vn 0 0 1"].map String.data).filter (fun l => firstTok l = some ['v'])).length = 0 :=
  ⟨by decide, by decide, by decide, by decide⟩

/-- Claim C1 (amended): for every mesh file both loaders produce exactly one
vertex per line whose first non-whitespace character is 'v' (its three
floats read in order x, y, z from the rest of the line) and one face triple
per line whose first non-whitespace character is 'f', both in file order,
skipping empty lines and ignoring lines with any other first character — the
type tag is the first character, not the first whitespace-delimited token. -/
theorem c1_load_counts_and_order (lines : List String) :
    load_smf lines = spec_load_by_char lines ∧ loadSMF lines = load_smf lines :=
  ⟨loadCore_eq (lines.map String.data), rfl⟩

lemma readU32_lt (s : IStream) : (readU32 s).1 < 4294967296 := by
  unfold readU32
  dsimp only
  repeat' split
  all_goals omega

lemma faceNums_lt (rest : Line) :
    (faceNums rest).1 < 4294967296 ∧ (faceNums rest).2.1 < 4294967296 ∧
    (faceNums rest).2.2 < 4294967296 := by
  unfold faceNums
  exact ⟨readU32_lt _, readU32_lt _, readU32_lt _⟩

lemma u32sub1_eq_sub (a : Nat) (h1 : 1 ≤ a) (h2 : a < 4294967296) : u32sub1 a = a - 1 := by
  unfold u32sub1
  omega

/-- Claim C2: every stored face triple of either loader is the `f`-branch
parse of an `f` line, in file order, and for every face directive whose
three one-based values are at least 1 the stored indices are exactly those
values minus one. -/
theorem c2_face_indices_minus_one :
    (∀ lines : List String,
      loadSMF lines = load_smf lines ∧
      (load_smf lines).2 =
        (tagLines 'f' (lines.map String.data)).map (fun l => faceOf (afterTag l))) ∧
    (∀ (rest : Line) (a b c : Nat), faceNums rest = (a, b, c) →
      1 ≤ a → 1 ≤ b → 1 ≤ c → faceOf rest = ⟨a - 1, b - 1, c - 1⟩) := by
  constructor
  · intro lines
    exact ⟨rfl, congrArg Prod.snd (loadCore_eq (lines.map String.data))⟩
  · intro rest a b c hn ha hb hc
    obtain ⟨l1, l2, l3⟩ := faceNums_lt rest
    rw [hn] at l1 l2 l3
    unfold faceOf
    rw [hn]
    rw [u32sub1_eq_sub a ha l1, u32sub1_eq_sub b hb l2, u32sub1_eq_sub c hc l3]

/-- Witness for claim C2 at the face directive `f 2 3 4`. -/
theorem c2_face_indices_minus_one_witness : faceOf (" 2 3 4".data) = ⟨1, 2, 3⟩ :=
  c2_face_indices_minus_one.2 (" 2 3 4".data) 2 3 4 (by decide) (by decide) (by decide)
    (by decide)

/-- Claim C10: a face value of 0 wraps under the unsigned subtraction — the
loaders store 2^32 - 1 = 4294967295 instead of failing; concretely the file
with lines "v 0 0 0" and "f 0 1 1" loads the face triple (4294967295, 0, 0);
and no range check against the vertex count exists — the loaded faces are
fully determined by the `f` lines alone, independent of the `v` lines. -/
theorem c10_zero_index_wraps :
    (∀ (rest : Line) (a b c : Nat), faceNums rest = (a, b, c) → a = 0 →
      (faceOf rest).x = 4294967295) ∧
    (load_smf ["v 0 0 0", "f 0 1 1"]).2 = [⟨4294967295, 0, 0⟩] ∧
    (∀ L1 L2 : List String,
      tagLines 'f' (L1.map String.data) = tagLines 'f' (L2.map String.data) →
      (load_smf L1).2 = (load_smf L2).2) := by
  refine ⟨?_, by decide, ?_⟩
  · intro rest a b c hn ha
    subst ha
    unfold faceOf
    rw [hn]
    show u32sub1 0 = 4294967295
    decide
  · intro L1 L2 hf
    unfold load_smf
    rw [loadCore_eq (L1.map String.data), loadCore_eq (L2.map String.data)]
    simp only
    rw [hf]

/-- Witness for claim C10 at the face directive `f 0 1 1`. -/
theorem c10_zero_index_wraps_witness : (faceOf (" 0 1 1".data)).x = 4294967295 :=
  c10_zero_index_wraps.1 (" 0 1 1".data) 0 1 1 (by decide) rfl

/-- Claim C6: the loader run fails exactly when the file cannot be opened and
succeeds on every readable file regardless of its content (the parse loop is
total, so no parse error is ever raised); the modelled entry stage returns 0
exactly when a file argument is present and the file opens, and -1 exactly
on a missing argument or an unopenable file. -/
theorem c6_failure_conditions (argv : List String) (openable : Bool) (content : List String) :
    (load_smf_run openable content = none ↔ openable = false) ∧
    load_smf_run true content = some (load_smf content) ∧
    (main_run argv openable content = 0 ↔ 2 ≤ argv.length ∧ openable = true) ∧
    (main_run argv openable content = -1 ↔ argv.length < 2 ∨ openable = false) := by
  by_cases h : argv.length < 2 <;>
    cases openable <;>
    · simp [load_smf_run, main_run, h]
      try omega

/-- Claim C5, counterexample: at part2's initial state a repeat event of the
material key M leaves the state unchanged, while an initial press advances
the material index — repeat and press are not treated identically for the
material-cycle key. -/
theorem c5_material_repeat_counterexample :
    key_callback init2 .M .rpt ≠ key_callback init2 .M .press := by decide

/-- Claim C5 (amended): a key-repeat event produces exactly the same state
update as an initial key press for every key of part1's handler, and for
every key of part2's handler except the material-cycle key M, whose branch
fires only on an initial press. -/
theorem c5_repeat_equals_press (st1 : State1) (st2 : State2) (k1 k2 : Key)
    (hk : k2 ≠ .M) :
    onKey st1 k1 .rpt = onKey st1 k1 .press ∧
    key_callback st2 k2 .rpt = key_callback st2 k2 .press := by
  constructor
  · cases k1 <;> rfl
  · cases k2 <;> first | rfl | exact absurd rfl hk

/-- Witness for the amended claim C5: key A at the initial states. -/
theorem c5_repeat_equals_press_witness :
    onKey init1 .A .rpt = onKey init1 .A .press ∧
    key_callback init2 .A .rpt = key_callback init2 .A .press :=
  c5_repeat_equals_press init1 init2 .A .A (by decide)

/-- Claim C9: any sequence of key events changes only the control scalars:
loaded positions, faces and the built vertex list are unchanged in both
programs, so vertex and face counts and geometry are identical before and
after any toggle. -/
theorem c9_keys_preserve_geometry :
    (∀ (p : ProgState1) (evs : List (Key × KeyAction)),
      (applyKeys1 p evs).positions = p.positions ∧
      (applyKeys1 p evs).faces = p.faces ∧
      (applyKeys1 p evs).vertices = p.vertices) ∧
    (∀ (p : ProgState2) (evs : List (Key × KeyAction)),
      (applyKeys2 p evs).positions = p.positions ∧
      (applyKeys2 p evs).faces = p.faces ∧
      (applyKeys2 p evs).vertices = p.vertices) := by
  constructor
  · intro p evs
    induction evs generalizing p with
    | nil => exact ⟨rfl, rfl, rfl⟩
    | cons e evs ih => exact ih (stepKey1 p e)
  · intro p evs
    induction evs generalizing p with
    | nil => exact ⟨rfl, rfl, rfl⟩
    | cons e evs ih => exact ih (stepKey2 p e)

/-- Claim C3: the flat variant's vertex list has length three times the face
count — exactly three vertices per face, duplicated per face with no
sharing — and the slice for face i consists of that face's three corner
positions in winding order, each carrying the shared normal
normalize(cross(p1 - p0, p2 - p0)) and the colour |normal|; for the face
with corners (0,0,0), (1,0,0), (0,1,0) that normal is (0,0,1). -/
theorem c3_flat_emission (positions : List Vec3) (faces : List UVec3) :
    (flatVertices positions faces).length = 3 * faces.length ∧
    (∀ (i : Nat) (hi : i < faces.length),
      ((flatVertices positions faces).drop (3 * i)).take 3 =
        flatTriple positions (faces.get ⟨i, hi⟩)) ∧
    faceNormal ⟨0, 0, 0⟩ ⟨1, 0, 0⟩ ⟨0, 1, 0⟩ = ⟨0, 0, 1⟩ :=
  ⟨flatVertices_length positions faces,
   fun i hi => flatVertices_slice positions faces i hi,
   faceNormal_tri1⟩

/-- Witness for claim C3 at a one-face mesh. -/
theorem c3_flat_emission_witness :
    ((flatVertices [⟨0, 0, 0⟩, ⟨1, 0, 0⟩, ⟨0, 1, 0⟩] [⟨0, 1, 2⟩]).drop (3 * 0)).take 3 =
      flatTriple [⟨0, 0, 0⟩, ⟨1, 0, 0⟩, ⟨0, 1, 0⟩]
        (([⟨0, 1, 2⟩] : List UVec3).get ⟨0, by decide⟩) :=
  (c3_flat_emission [⟨0, 0, 0⟩, ⟨1, 0, 0⟩, ⟨0, 1, 0⟩] [⟨0, 1, 2⟩]).2.1 0 (by decide)

/-- Claim C4: at every in-range vertex index, the smooth variant's normal is
the normalisation of the sum of the unit normals of the referencing face
slots divided by the reference count (zero when nothing references the
vertex); at a vertex referenced by exactly two faces sharing the unit normal
n the result is n itself, and at a vertex referenced by exactly two faces
with normals n1 and n2 the result is the normalized average
normalize((n1 + n2) / 2), which equals normalize(n1 + n2). -/
theorem c4_smooth_vertex_normals (positions : List Vec3) (faces : List UVec3)
    (v : Nat) (hv : v < positions.length) :
    ((vertex_normals positions faces).getD v 0 =
      (if 0 < (occNormals v (faces.zip (face_normals positions faces))).length
       then glm.normalize
         ((((occNormals v (faces.zip (face_normals positions faces))).length : ℝ))⁻¹ •
           (occNormals v (faces.zip (face_normals positions faces))).sum)
       else 0)) ∧
    (∀ n : Vec3, occNormals v (faces.zip (face_normals positions faces)) = [n, n] →
      glm.length n = 1 → (vertex_normals positions faces).getD v 0 = n) ∧
    (∀ n1 n2 : Vec3, occNormals v (faces.zip (face_normals positions faces)) = [n1, n2] →
      (vertex_normals positions faces).getD v 0 = glm.normalize ((2 : ℝ)⁻¹ • (n1 + n2)) ∧
      (vertex_normals positions faces).getD v 0 = glm.normalize (n1 + n2)) := by
  refine ⟨vertex_normals_getD positions faces v hv, ?_, ?_⟩
  · intro n hocc hn
    have hsum : ([n, n] : List Vec3).sum = n + n := by simp
    have havg : ((1 : ℝ) / 2) • (n + n) = n := by
      ext <;> simp <;> ring
    rw [vertex_normals_getD positions faces v hv, hocc, hsum]
    norm_num
    rw [havg]
    exact glm.normalize_unit n hn
  · intro n1 n2 hocc
    have hsum : ([n1, n2] : List Vec3).sum = n1 + n2 := by simp
    have key : (vertex_normals positions faces).getD v 0 =
        glm.normalize ((2 : ℝ)⁻¹ • (n1 + n2)) := by
      rw [vertex_normals_getD positions faces v hv, hocc, hsum]
      norm_num
    exact ⟨key, key.trans (glm.normalize_smul_pos ((2 : ℝ)⁻¹) (by norm_num) (n1 + n2))⟩

lemma face_normals_square :
    face_normals [⟨0, 0, 0⟩, ⟨1, 0, 0⟩, ⟨0, 1, 0⟩, ⟨1, 1, 0⟩] [⟨0, 1, 2⟩, ⟨1, 3, 2⟩] =
      [⟨0, 0, 1⟩, ⟨0, 0, 1⟩] := by
  unfold face_normals
  simp only [List.map_cons, List.map_nil, List.getD_cons_zero, List.getD_cons_succ]
  rw [faceNormal_tri1, faceNormal_tri2]

/-- Witness for claim C4: in the mesh of two coplanar unit triangles sharing
vertex index 2, that vertex is referenced by both faces with the common unit
normal (0,0,1) and its averaged normal is exactly that normal. -/
theorem c4_smooth_vertex_normals_witness :
    (vertex_normals [⟨0, 0, 0⟩, ⟨1, 0, 0⟩, ⟨0, 1, 0⟩, ⟨1, 1, 0⟩]
        [⟨0, 1, 2⟩, ⟨1, 3, 2⟩]).getD 2 0 = ⟨0, 0, 1⟩ :=
  (c4_smooth_vertex_normals [⟨0, 0, 0⟩, ⟨1, 0, 0⟩, ⟨0, 1, 0⟩, ⟨1, 1, 0⟩]
      [⟨0, 1, 2⟩, ⟨1, 3, 2⟩] 2 (by norm_num)).2.1 ⟨0, 0, 1⟩
    (by
      rw [face_normals_square]
      simp [occNormals, List.zip])
    length_e3

/-- Claim C7: a vertex referenced by zero faces keeps exactly the zero
normal: the normalisation step is guarded by a positive reference count, so
at every in-range vertex index with no referencing face slot the final
normal is the zero vector — a valid terminal state, not an error. -/
theorem c7_zero_ref_vertex_zero_normal (positions : List Vec3) (faces : List UVec3)
    (v : Nat) (hv : v < positions.length) (h0 : vertexRefCount v faces = 0) :
    (vertex_normals positions faces).getD v 0 = 0 := by
  rw [vertex_normals_getD positions faces v hv,
    occNormals_nil_of_refCount_zero v faces _ h0]
  simp

/-- Witness for claim C7: a two-vertex mesh with no faces leaves vertex 0
with the zero normal. -/
theorem c7_zero_ref_vertex_zero_normal_witness :
    (vertex_normals [⟨0, 0, 0⟩, ⟨1, 2, 3⟩] []).getD 0 0 = 0 :=
  c7_zero_ref_vertex_zero_normal [⟨0, 0, 0⟩, ⟨1, 2, 3⟩] [] 0 (by norm_num) rfl

/-- Claim C8: the orthographic half-extent equals twice the bounding radius
(the maximal distance of any vertex from the centroid) and is linear in it —
scaling the mesh by any k ≥ 0 scales the half-extent by k — while the
perspective projection has the fixed parameters 45-degree vertical field of
view, near 0.01 and far 100, independent of the mesh. -/
theorem c8_ortho_linear_persp_fixed (positions : List Vec3) (k aspect : ℝ) (hk : 0 ≤ k) :
    orthoHalfExtent positions = 2 * maxRadius positions ∧
    orthoHalfExtent (scaleMesh k positions) = k * orthoHalfExtent positions ∧
    projection true aspect positions = Proj.persp (glm.radians 45) aspect 0.01 100 := by
  refine ⟨by unfold orthoHalfExtent; ring, ?_, rfl⟩
  unfold orthoHalfExtent
  rw [maxRadius_smul k hk]
  ring

/-- Witness for claim C8: doubling a one-vertex mesh doubles the half-extent. -/
theorem c8_ortho_linear_persp_fixed_witness :
    orthoHalfExtent (scaleMesh 2 [⟨1, 0, 0⟩]) = 2 * orthoHalfExtent [⟨1, 0, 0⟩] :=
  (c8_ortho_linear_persp_fixed [⟨1, 0, 0⟩] 2 1 (by norm_num)).2.1
